import Mathlib

/-!
Verification of the grant-tracker budget ledger and import engine.

The TypeScript sources are embedded shallowly: JavaScript numbers are
modelled as rationals, undefined values as none, and the JavaScript
falsy coalescing operator x || d is translated field by field.  Where a
numeric field can also hold NaN (the result of a failed parse), NaN is
modelled as none as well; this is sound for this code base because every
consumer of such a field coalesces NaN and undefined identically (both
are falsy) and never branches on them separately.
-/

namespace GrantTracker

/-- Discriminant of a budget category, from the type union in
BudgetForm.tsx.  The data model of the spec additionally lists an
indirect kind, which the renderer union omits; the calculator switch
sends it to the default branch together with materials, publication and
other, so it is included here as its own constructor. -/
inductive CatType where
  | pi_salary
  | student_salary
  | travel
  | materials
  | publication
  | tuition
  | indirect
  | other
  deriving DecidableEq

/-- A budget category record, after the BudgetCategory interface of
BudgetForm.tsx.  The amount field is optional only to model a NaN
produced by a failed parse during import; a normal record carries some
value. -/
structure BudgetCategory where
  id : String
  category : String
  type : CatType
  amount : Option ℚ
  description : Option String
  createdAt : String
  monthlyRate : Option ℚ
  numberOfMonths : Option ℚ
  yearlyRate : Option ℚ
  numberOfYears : Option ℚ
  numberOfTrips : Option ℚ
  costPerTrip : Option ℚ
  numberOfStudents : Option ℚ
  notes : Option String
  fiscalYear : Option String
  deriving DecidableEq

/-- JavaScript coalescing x || 0 on an optional numeric field: undefined
and NaN give 0, and a present 0 stays 0, hence getD 0 under the
NaN-as-none model. -/
def orZero (o : Option ℚ) : ℚ := o.getD 0

/-- JavaScript coalescing x || 1 on an optional numeric field: undefined
and NaN give 1, and so does a present 0, because 0 is falsy. -/
def orOne (o : Option ℚ) : ℚ :=
  match o with
  | none => 1
  | some v => if v = 0 then 1 else v

/-- The calculator calculateAmount of BudgetForm.tsx lines 96 to 111,
translated switch case by switch case: the pi and student salary cases
share the monthly total, the student case multiplies by
numberOfStudents || 1, and the default case returns amount || 0. -/
def calculateAmount (b : BudgetCategory) : ℚ :=
  match b.type with
  | CatType.pi_salary => orZero b.monthlyRate * orZero b.numberOfMonths
  | CatType.student_salary =>
      orZero b.monthlyRate * orZero b.numberOfMonths * orOne b.numberOfStudents
  | CatType.tuition =>
      orZero b.yearlyRate * orOne b.numberOfYears * orOne b.numberOfStudents
  | CatType.travel => orZero b.costPerTrip * orOne b.numberOfTrips
  | _ => orZero b.amount

/-- A blank category record, used to build concrete test inputs. -/
def blankCat (t : CatType) : BudgetCategory :=
  { id := "", category := "", type := t, amount := none, description := none,
    createdAt := "", monthlyRate := none, numberOfMonths := none,
    yearlyRate := none, numberOfYears := none, numberOfTrips := none,
    costPerTrip := none, numberOfStudents := none, notes := none,
    fiscalYear := none }

/-- Claim C1, counterexample: a student salary category with every
numeric parameter supplied computes 9000 when numberOfStudents is
supplied as 0, while the table formula monthlyRate times numberOfMonths
times numberOfStudents gives 0.  The coalescing numberOfStudents || 1
turns a supplied 0 into 1, so the claim as stated fails. -/
theorem calc_student_zero_students_ne_formula :
    calculateAmount { blankCat CatType.student_salary with
        monthlyRate := some 3000, numberOfMonths := some 3,
        numberOfStudents := some 0 } = 9000 ∧
    (3000 * 3 * 0 : ℚ) = 0 ∧ (9000 : ℚ) ≠ 0 := by
  refine ⟨?_, by norm_num, by norm_num⟩
  norm_num [calculateAmount, blankCat, orZero, orOne]

/-- Claim C1 (amended): the calculator returns the table formula for each
derivable type whenever the parameters are supplied and the count
parameters in a coalesce-to-one position (numberOfStudents,
numberOfYears, numberOfTrips) are nonzero; a supplied zero in those
positions is coalesced to 1.  For materials, publication, indirect and
other, the supplied amount is returned unchanged.  In particular the two
scenario instances of the spec hold. -/
theorem calculateAmount_formula :
    (∀ b : BudgetCategory, ∀ m mo : ℚ, b.type = CatType.pi_salary →
      b.monthlyRate = some m → b.numberOfMonths = some mo →
      calculateAmount b = m * mo) ∧
    (∀ b : BudgetCategory, ∀ m mo s : ℚ, b.type = CatType.student_salary →
      b.monthlyRate = some m → b.numberOfMonths = some mo →
      b.numberOfStudents = some s → s ≠ 0 →
      calculateAmount b = m * mo * s) ∧
    (∀ b : BudgetCategory, ∀ y ys s : ℚ, b.type = CatType.tuition →
      b.yearlyRate = some y → b.numberOfYears = some ys → ys ≠ 0 →
      b.numberOfStudents = some s → s ≠ 0 →
      calculateAmount b = y * ys * s) ∧
    (∀ b : BudgetCategory, ∀ c n : ℚ, b.type = CatType.travel →
      b.costPerTrip = some c → b.numberOfTrips = some n → n ≠ 0 →
      calculateAmount b = c * n) ∧
    (∀ b : BudgetCategory, ∀ a : ℚ,
      (b.type = CatType.materials ∨ b.type = CatType.publication ∨
       b.type = CatType.indirect ∨ b.type = CatType.other) →
      b.amount = some a → calculateAmount b = a) ∧
    calculateAmount { blankCat CatType.student_salary with
      monthlyRate := some 3000, numberOfMonths := some 3,
      numberOfStudents := some 4 } = 36000 ∧
    calculateAmount { blankCat CatType.pi_salary with
      monthlyRate := some 10000, numberOfMonths := some 3 } = 30000 := by
  refine ⟨?_, ?_, ?_, ?_, ?_, ?_, ?_⟩
  · intro b m mo ht hm hmo
    simp [calculateAmount, ht, hm, hmo, orZero]
  · intro b m mo s ht hm hmo hs hs0
    simp [calculateAmount, ht, hm, hmo, hs, orZero, orOne, hs0]
  · intro b y ys s ht hy hys hys0 hs hs0
    simp [calculateAmount, ht, hy, hys, hs, orZero, orOne, hys0, hs0]
  · intro b c n ht hc hn hn0
    simp [calculateAmount, ht, hc, hn, orZero, orOne, hn0]
  · intro b a ht ha
    rcases ht with h | h | h | h <;> simp [calculateAmount, h, ha, orZero]
  · norm_num [calculateAmount, blankCat, orZero, orOne]
  · norm_num [calculateAmount, blankCat, orZero, orOne]

/-- Witness for claim C1 (amended): the student salary branch applied at
the scenario input 3000, 3 months, 4 students. -/
theorem calculateAmount_formula_witness :
    calculateAmount { blankCat CatType.student_salary with
      monthlyRate := some 3000, numberOfMonths := some 3,
      numberOfStudents := some 4 } = 3000 * 3 * 4 :=
  calculateAmount_formula.2.1 _ 3000 3 4 rfl rfl rfl rfl (by norm_num)

/-- Claim C2: for every category, replacing a missing numeric parameter
by a supplied 0 does not change the computed amount, in every parameter
position (and in the amount position consumed by the default branch).
This holds because the JavaScript coalescings x || 0 and x || 1 send
undefined and 0 to the same value. -/
theorem calc_missing_input_eq_zero_input (b : BudgetCategory) :
    calculateAmount { b with monthlyRate := none } =
      calculateAmount { b with monthlyRate := some 0 } ∧
    calculateAmount { b with numberOfMonths := none } =
      calculateAmount { b with numberOfMonths := some 0 } ∧
    calculateAmount { b with yearlyRate := none } =
      calculateAmount { b with yearlyRate := some 0 } ∧
    calculateAmount { b with numberOfYears := none } =
      calculateAmount { b with numberOfYears := some 0 } ∧
    calculateAmount { b with numberOfTrips := none } =
      calculateAmount { b with numberOfTrips := some 0 } ∧
    calculateAmount { b with costPerTrip := none } =
      calculateAmount { b with costPerTrip := some 0 } ∧
    calculateAmount { b with numberOfStudents := none } =
      calculateAmount { b with numberOfStudents := some 0 } ∧
    calculateAmount { b with amount := none } =
      calculateAmount { b with amount := some 0 } := by
  obtain ⟨i, c, t, a, d, ca, mr, nm, yr, ny, nt, cpt, ns, no, fy⟩ := b
  cases t <;> simp [calculateAmount, orZero, orOne]

/-- An expense record, after the Expense shape used by main.ts.  The
date is modelled as an integer key: the handlers compare dates through
getTime of the parsed Date, a number, and for the stored date strings
that comparison is the usual total order on those keys. -/
structure Expense where
  id : String
  description : String
  amount : ℚ
  category : String
  date : ℤ
  notes : Option String
  grantId : String
  createdAt : String
  updatedAt : String
  deriving DecidableEq

/-- A grant record, after the Grant shape used by main.ts.  The
budgetCategories field is optional: the second variant of grants:create
stores a grant without it when the caller omits it.  The totalAmount is
optional only to model a NaN from a failed parse during import. -/
structure Grant where
  id : String
  title : String
  agency : String
  number : String
  totalAmount : Option ℚ
  startDate : String
  endDate : String
  description : String
  status : String
  budgetCategories : Option (List BudgetCategory)
  createdAt : String
  updatedAt : String
  deriving DecidableEq

/-- The persisted document of main.ts: one JSON file with the keys
grants and expenses.  Every handler reads it whole, mutates it, and
writes it back whole. -/
structure LedgerState where
  grants : List Grant
  expenses : List Expense
  deriving DecidableEq

/-- One pass combining findIndex and splice(grantIndex, 1) from the
grants:delete handler: remove the first grant whose id matches, or none
when no grant matches. -/
def removeFirstById : List Grant → String → Option (List Grant)
  | [], _ => none
  | g :: t, gid =>
      if g.id = gid then some t else (removeFirstById t gid).map (g :: ·)

/-- The grants:delete handler of main.ts lines 164 to 176: find the
grant, splice it out, drop every expense whose grantId matches, write.
A none result models the thrown Grant not found error, which is raised
before writeData, so the persisted store is untouched in that case. -/
def deleteGrant (s : LedgerState) (gid : String) : Option LedgerState :=
  (removeFirstById s.grants gid).map
    (fun gs =>
      { grants := gs,
        expenses := s.expenses.filter (fun e => e.grantId != gid) })

/-- With no matching grant, the findIndex and splice pass reports none. -/
theorem removeFirstById_eq_none {l : List Grant} {gid : String}
    (h : ∀ g ∈ l, g.id ≠ gid) : removeFirstById l gid = none := by
  induction l with
  | nil => rfl
  | cons g t ih =>
      have hg : g.id ≠ gid := h g (by simp)
      simp [removeFirstById, hg, ih fun x hx => h x (by simp [hx])]

/-- Under distinct grant ids, removing the first match equals filtering
out every match, because there is exactly one. -/
theorem removeFirstById_eq_filter {l : List Grant} {gid : String}
    (hnd : (l.map Grant.id).Nodup) (hmem : ∃ g ∈ l, g.id = gid) :
    removeFirstById l gid = some (l.filter (fun g => g.id != gid)) := by
  induction l with
  | nil => simp at hmem
  | cons g t ih =>
      by_cases hg : g.id = gid
      · have hrest : ∀ x ∈ t, x.id ≠ gid := by
          intro x hx hxe
          have : g.id ∈ t.map Grant.id := by
            rw [hg, ← hxe]; exact List.mem_map_of_mem Grant.id hx
          exact (List.nodup_cons.mp hnd).1 this
        have hfix : t.filter (fun x => x.id != gid) = t :=
          List.filter_eq_self.mpr fun x hx => by
            simpa using hrest x hx
        simp [removeFirstById, hg, hfix]
      · obtain ⟨w, hw, hwid⟩ := hmem
        rcases List.mem_cons.mp hw with hw1 | hw1
        · exact absurd (hw1 ▸ hwid) hg
        · have := ih (List.nodup_cons.mp hnd).2 ⟨w, hw1, hwid⟩
          simp [removeFirstById, hg, this]

/-- Claim C4: when the grant ids in the store are distinct and the id is
present, grants:delete removes exactly the grant with that id together
with every expense whose grantId equals it, in the single written
document, and every other grant and expense survives the two filters
unchanged; when the id is absent the handler reports not found and
nothing is written. -/
theorem deleteGrant_spec (s : LedgerState) (gid : String) :
    ((s.grants.map Grant.id).Nodup → (∃ g ∈ s.grants, g.id = gid) →
      deleteGrant s gid = some
        { grants := s.grants.filter (fun g => g.id != gid),
          expenses := s.expenses.filter (fun e => e.grantId != gid) }) ∧
    ((∀ g ∈ s.grants, g.id ≠ gid) → deleteGrant s gid = none) := by
  constructor
  · intro hnd hmem
    simp [deleteGrant, removeFirstById_eq_filter hnd hmem]
  · intro h
    simp [deleteGrant, removeFirstById_eq_none h]

/-- A grant record with blank metadata, used for concrete test stores. -/
def plainGrant (gid : String) : Grant :=
  { id := gid, title := "T", agency := "A", number := "N",
    totalAmount := some 0, startDate := "", endDate := "",
    description := "", status := "Active", budgetCategories := some [],
    createdAt := "", updatedAt := "" }

/-- An expense record with blank metadata, used for concrete test
stores. -/
def plainExpense (eid gid : String) (d : ℤ) : Expense :=
  { id := eid, description := "d", amount := 1, category := "Other",
    date := d, notes := none, grantId := gid, createdAt := "",
    updatedAt := "" }

/-- Witness for claim C4, the scenario of the spec: grant G1 holds
expenses E1 and E2, grant G2 holds E3; deleting G1 leaves exactly G2 and
E3. -/
theorem deleteGrant_spec_witness :
    deleteGrant
      { grants := [plainGrant "G1", plainGrant "G2"],
        expenses := [plainExpense "E1" "G1" 1, plainExpense "E2" "G1" 2,
                     plainExpense "E3" "G2" 3] } "G1" =
    some { grants := [plainGrant "G2"],
           expenses := [plainExpense "E3" "G2" 3] } := by
  have h := (deleteGrant_spec
      { grants := [plainGrant "G1", plainGrant "G2"],
        expenses := [plainExpense "E1" "G1" 1, plainExpense "E2" "G1" 2,
                     plainExpense "E3" "G2" 3] } "G1").1
    (by simp [plainGrant]) ⟨plainGrant "G1", by simp, rfl⟩
  rw [h]
  simp [plainGrant, plainExpense]

/-- The caller-supplied payload of expenses:create. -/
structure ExpenseInput where
  description : String
  amount : ℚ
  category : String
  date : ℤ
  notes : Option String
  grantId : String
  deriving DecidableEq

/-- The expenses:create handler, identical in both variants of main.ts
(lines 178 to 189 and 651 to 662): spread the payload, assign id and
timestamps, push, write.  No lookup of the referenced grant happens
anywhere in the handler, so the function is total by construction. -/
def createExpense (s : LedgerState) (x : ExpenseInput) (newId now : String) :
    Expense × LedgerState :=
  let e : Expense :=
    { id := newId, description := x.description, amount := x.amount,
      category := x.category, date := x.date, notes := x.notes,
      grantId := x.grantId, createdAt := now, updatedAt := now }
  (e, { grants := s.grants, expenses := s.expenses ++ [e] })

/-- Claim C10: expenses:create never checks the grantId against the
stored grants; it appends the new expense for every store state, keeps
the grants untouched, and when the grantId matches no stored grant the
resulting store holds an expense whose grantId references no grant. -/
theorem createExpense_never_checks_grant (s : LedgerState) (x : ExpenseInput)
    (newId now : String) :
    (createExpense s x newId now).2.grants = s.grants ∧
    (createExpense s x newId now).2.expenses =
      s.expenses ++ [(createExpense s x newId now).1] ∧
    (createExpense s x newId now).1.grantId = x.grantId ∧
    ((∀ g ∈ s.grants, g.id ≠ x.grantId) →
      ∃ e ∈ (createExpense s x newId now).2.expenses,
        ∀ g ∈ (createExpense s x newId now).2.grants, g.id ≠ e.grantId) := by
  refine ⟨rfl, rfl, rfl, ?_⟩
  intro h
  exact ⟨(createExpense s x newId now).1, by simp [createExpense], h⟩

/-- Witness for claim C10: creating an expense against an empty store,
whose grantId therefore references no grant, still succeeds and stores
the dangling expense. -/
theorem createExpense_never_checks_grant_witness :
    ∃ e ∈ (createExpense { grants := [], expenses := [] }
        { description := "d", amount := 5, category := "Other", date := 1,
          notes := none, grantId := "ghost" } "e1" "t").2.expenses,
      ∀ g ∈ (createExpense { grants := [], expenses := [] }
        { description := "d", amount := 5, category := "Other", date := 1,
          notes := none, grantId := "ghost" } "e1" "t").2.grants,
        g.id ≠ e.grantId :=
  (createExpense_never_checks_grant { grants := [], expenses := [] }
    { description := "d", amount := 5, category := "Other", date := 1,
      notes := none, grantId := "ghost" } "e1" "t").2.2.2
    (by simp)

/-- The caller-supplied payload of grants:create. -/
structure GrantInput where
  title : String
  agency : String
  number : String
  totalAmount : Option ℚ
  startDate : String
  endDate : String
  description : String
  status : String
  budgetCategories : Option (List BudgetCategory)
  deriving DecidableEq

/-- The grants:create handler of the first variant of main.ts (lines 123
to 147): spread the payload, assign id and both timestamps, and set
budgetCategories to the payload list or, when that is absent, the empty
list (a present empty array is truthy in JavaScript and is kept). -/
def createGrantV1 (s : LedgerState) (x : GrantInput) (newId now : String) :
    Grant × LedgerState :=
  let g : Grant :=
    { id := newId, title := x.title, agency := x.agency, number := x.number,
      totalAmount := x.totalAmount, startDate := x.startDate,
      endDate := x.endDate, description := x.description, status := x.status,
      budgetCategories := some (x.budgetCategories.getD []),
      createdAt := now, updatedAt := now }
  (g, { grants := s.grants ++ [g], expenses := s.expenses })

/-- The grants:create handler of the second variant of main.ts (lines
597 to 620): spread the payload and assign id and timestamps only; the
budgetCategories field is stored exactly as supplied, so an omitted
field stays absent. -/
def createGrantV2 (s : LedgerState) (x : GrantInput) (newId now : String) :
    Grant × LedgerState :=
  let g : Grant :=
    { id := newId, title := x.title, agency := x.agency, number := x.number,
      totalAmount := x.totalAmount, startDate := x.startDate,
      endDate := x.endDate, description := x.description, status := x.status,
      budgetCategories := x.budgetCategories,
      createdAt := now, updatedAt := now }
  (g, { grants := s.grants ++ [g], expenses := s.expenses })

/-- The budget:get handler, identical in both variants: find the grant
and return its budgetCategories, or the empty list when the grant or the
field is absent (an empty stored array is truthy and returned as is,
which is also the empty list). -/
def budgetGet (s : LedgerState) (gid : String) : List BudgetCategory :=
  ((s.grants.find? (fun g => g.id == gid)).bind Grant.budgetCategories).getD []

/-- A concrete grant payload with the budgetCategories field omitted. -/
def inputNoCats : GrantInput :=
  { title := "T", agency := "A", number := "N", totalAmount := some 100,
    startDate := "2025-01-01", endDate := "2025-12-31", description := "",
    status := "Active", budgetCategories := none }

/-- Claim C9, counterexample: the second variant of grants:create, fed a
payload without budgetCategories, stores and returns a grant whose
budgetCategories field is absent, not the empty list. -/
theorem createGrantV2_no_default_counterexample :
    (createGrantV2 { grants := [], expenses := [] } inputNoCats "g1" "t").1.budgetCategories
      = none ∧
    (createGrantV2 { grants := [], expenses := [] } inputNoCats "g1" "t").1.budgetCategories
      ≠ some [] := by
  constructor
  · rfl
  · simp [createGrantV2, inputNoCats]

/-- Claim C9 (amended): with budgetCategories omitted from the payload,
the first variant of grants:create persists and returns a grant whose
budgetCategories is the empty list, while the second variant stores the
grant with the field absent; readers of the second variant substitute
the empty list, as budget:get does on the freshly created grant.  Both
variants append exactly the new grant and leave the expenses alone. -/
theorem createGrant_default_categories (s : LedgerState) (x : GrantInput)
    (newId now : String) :
    (x.budgetCategories = none →
      (createGrantV1 s x newId now).1.budgetCategories = some [] ∧
      (createGrantV2 s x newId now).1.budgetCategories = none) ∧
    (createGrantV1 s x newId now).2.grants =
      s.grants ++ [(createGrantV1 s x newId now).1] ∧
    (createGrantV1 s x newId now).2.expenses = s.expenses ∧
    (createGrantV2 s x newId now).2.grants =
      s.grants ++ [(createGrantV2 s x newId now).1] ∧
    (createGrantV2 s x newId now).2.expenses = s.expenses ∧
    (x.budgetCategories = none → (∀ g ∈ s.grants, g.id ≠ newId) →
      budgetGet (createGrantV2 s x newId now).2 newId = []) := by
  refine ⟨?_, rfl, rfl, rfl, rfl, ?_⟩
  · intro h
    exact ⟨by simp [createGrantV1, h], by simp [createGrantV2, h]⟩
  · intro h hfresh
    have hnone : List.find? (fun g => g.id == newId) s.grants = none := by
      apply List.find?_eq_none.mpr
      intro g hg
      simpa using hfresh g hg
    simp [budgetGet, createGrantV2, List.find?_append, hnone, h]

/-- Witness for claim C9 (amended): the theorem applied to an empty
store and the concrete payload without budgetCategories. -/
theorem createGrant_default_categories_witness :
    (createGrantV1 { grants := [], expenses := [] } inputNoCats "g1" "t").1.budgetCategories
        = some [] ∧
    budgetGet (createGrantV2 { grants := [], expenses := [] } inputNoCats "g1" "t").2 "g1"
        = [] := by
  have h := createGrant_default_categories
    { grants := [], expenses := [] } inputNoCats "g1" "t"
  exact ⟨(h.1 rfl).1, h.2.2.2.2.2 rfl (by simp)⟩

/-- One pass combining findIndex with the in-place update of the found
element, as the budget:import handler performs on the grants array:
update the first grant whose id matches, or none when no grant
matches. -/
def replaceFirstById : List Grant → String → (Grant → Grant) → Option (List Grant)
  | [], _, _ => none
  | g :: t, gid, f =>
      if g.id = gid then some (f g :: t)
      else (replaceFirstById t gid f).map (g :: ·)

/-- The budgetCategories.map of the budget:import handler: each incoming
category is spread and its id and createdAt are overwritten with a newly
generated id and the current time, so caller-supplied ids never reach
the store.  The successive generateId results are modelled as an oracle
ids indexed by the position of the call, carried by the counter k. -/
def freshCatsFrom (ids : ℕ → String) (now : String) :
    ℕ → List BudgetCategory → List BudgetCategory
  | _, [] => []
  | k, c :: cs =>
      { c with id := ids k, createdAt := now } :: freshCatsFrom ids now (k + 1) cs

/-- The full mapped list of the budget:import handler, counting the
generateId calls from 0. -/
def freshCats (cs : List BudgetCategory) (ids : ℕ → String) (now : String) :
    List BudgetCategory :=
  freshCatsFrom ids now 0 cs

/-- The per-grant mutation of the budget:import handler: overwrite the
whole budgetCategories collection and refresh updatedAt. -/
def setCollection (bcs : List BudgetCategory) (now : String) (g : Grant) : Grant :=
  { g with budgetCategories := some bcs, updatedAt := now }

/-- The budget:import handler of main.ts lines 242 to 263: find the
grant, overwrite its whole budgetCategories collection with the freshly
mapped list, refresh updatedAt, write, and return the new collection; a
missing grant throws before any write.  The guard that initializes a
missing budgetCategories field to an empty array is dead code, because
the field is overwritten unconditionally by the next statement, so it is
not modelled. -/
def budgetImport (s : LedgerState) (gid : String) (cs : List BudgetCategory)
    (ids : ℕ → String) (now : String) : Option (List BudgetCategory × LedgerState) :=
  (replaceFirstById s.grants gid (setCollection (freshCats cs ids now) now)).map
    (fun gs => (freshCats cs ids now, { grants := gs, expenses := s.expenses }))

/-- With no matching grant, the findIndex and update pass reports
none. -/
theorem replaceFirstById_eq_none {l : List Grant} {gid : String}
    (f : Grant → Grant) (h : ∀ g ∈ l, g.id ≠ gid) :
    replaceFirstById l gid f = none := by
  induction l with
  | nil => rfl
  | cons g t ih =>
      have hg : g.id ≠ gid := h g (by simp)
      simp [replaceFirstById, hg, ih fun x hx => h x (by simp [hx])]

/-- Under distinct grant ids, updating the first match equals updating
every match, because there is exactly one. -/
theorem replaceFirstById_eq_map {l : List Grant} {gid : String} (f : Grant → Grant)
    (hnd : (l.map Grant.id).Nodup) (hmem : ∃ g ∈ l, g.id = gid) :
    replaceFirstById l gid f =
      some (l.map (fun g => if g.id = gid then f g else g)) := by
  induction l with
  | nil => simp at hmem
  | cons g t ih =>
      by_cases hg : g.id = gid
      · have hrest : ∀ x ∈ t, x.id ≠ gid := by
          intro x hx hxe
          have : g.id ∈ t.map Grant.id := by
            rw [hg, ← hxe]; exact List.mem_map_of_mem Grant.id hx
          exact (List.nodup_cons.mp hnd).1 this
        have hfix : t.map (fun x => if x.id = gid then f x else x) = t.map id :=
          List.map_congr_left fun x hx => if_neg (hrest x hx)
        simp [replaceFirstById, hg, hfix]
      · obtain ⟨w, hw, hwid⟩ := hmem
        rcases List.mem_cons.mp hw with hw1 | hw1
        · exact absurd (hw1 ▸ hwid) hg
        · have := ih (List.nodup_cons.mp hnd).2 ⟨w, hw1, hwid⟩
          simp [replaceFirstById, hg, this]

/-- The ids of the freshly mapped categories are exactly the generated
ones, in call order, whatever ids the caller supplied. -/
theorem freshCatsFrom_ids (ids : ℕ → String) (now : String) :
    ∀ (k : ℕ) (cs : List BudgetCategory),
      (freshCatsFrom ids now k cs).map BudgetCategory.id =
        (List.range' k cs.length).map ids := by
  intro k cs
  induction cs generalizing k with
  | nil => simp [freshCatsFrom]
  | cons c t ih => simp [freshCatsFrom, List.range'_succ, ih]

/-- The createdAt stamps of the freshly mapped categories are all the
current time. -/
theorem freshCatsFrom_createdAt (ids : ℕ → String) (now : String) :
    ∀ (k : ℕ) (cs : List BudgetCategory),
      (freshCatsFrom ids now k cs).map BudgetCategory.createdAt =
        List.replicate cs.length now := by
  intro k cs
  induction cs generalizing k with
  | nil => simp [freshCatsFrom]
  | cons c t ih => simp [freshCatsFrom, List.replicate_succ, ih]

/-- Claim C6: for a present grant (under distinct grant ids),
budget:import replaces the entire budgetCategories collection of exactly
that grant with freshCats cs ids now, a value of the new input, the id
oracle and the clock alone, so nothing of the previous collection
survives and a repeated import depends only on the new input; every
stored record carries a generated id (the caller ids are discarded) and
a fresh createdAt; all other grants and all expenses are unchanged. -/
theorem budgetImport_replaces (s : LedgerState) (gid : String)
    (cs : List BudgetCategory) (ids : ℕ → String) (now : String) :
    ((s.grants.map Grant.id).Nodup → (∃ g ∈ s.grants, g.id = gid) →
      budgetImport s gid cs ids now = some (freshCats cs ids now,
        { grants := s.grants.map (fun g =>
            if g.id = gid then setCollection (freshCats cs ids now) now g else g),
          expenses := s.expenses })) ∧
    (freshCats cs ids now).map BudgetCategory.id =
      (List.range cs.length).map ids ∧
    (freshCats cs ids now).map BudgetCategory.createdAt =
      List.replicate cs.length now ∧
    ((∀ g ∈ s.grants, g.id ≠ gid) → budgetImport s gid cs ids now = none) := by
  refine ⟨?_, ?_, ?_, ?_⟩
  · intro hnd hmem
    simp [budgetImport, replaceFirstById_eq_map _ hnd hmem]
  · rw [freshCats, freshCatsFrom_ids, List.range_eq_range']
  · rw [freshCats, freshCatsFrom_createdAt]
  · intro h
    simp [budgetImport, replaceFirstById_eq_none _ h]

/-- Witness for claim C6: importing one category that carries a caller
id into a one-grant store replaces the collection of that grant with the
freshly stamped copy. -/
theorem budgetImport_replaces_witness :
    budgetImport { grants := [plainGrant "G1"], expenses := [] } "G1"
      [{ blankCat CatType.other with id := "caller-id", amount := some 7 }]
      (fun i => "fresh" ++ toString i) "T2" =
    some (freshCats
        [{ blankCat CatType.other with id := "caller-id", amount := some 7 }]
        (fun i => "fresh" ++ toString i) "T2",
      { grants := [plainGrant "G1"].map (fun g => if g.id = "G1" then
          setCollection (freshCats
            [{ blankCat CatType.other with id := "caller-id", amount := some 7 }]
            (fun i => "fresh" ++ toString i) "T2") "T2" g else g),
        expenses := [] }) :=
  (budgetImport_replaces { grants := [plainGrant "G1"], expenses := [] } "G1"
    [{ blankCat CatType.other with id := "caller-id", amount := some 7 }]
    (fun i => "fresh" ++ toString i) "T2").1
    (by simp [plainGrant]) ⟨plainGrant "G1", by simp, rfl⟩

/-- An expense as returned by expenses:getByDateRange: the stored fields
spread together with a grant field holding the parent grant, or none
when the grantId matches no stored grant (the handler stores null).  A
stored grant record carries no expense list, expenses living in the
separate top-level array, so the snapshot contains none. -/
structure EnrichedExpense extends Expense where
  grant : Option Grant
  deriving DecidableEq

/-- The id-to-grant table the handler builds with reduce: later grants
overwrite earlier ones under the same id, so lookup yields the last
match. -/
def grantTable (gs : List Grant) (gid : String) : Option Grant :=
  gs.reverse.find? (fun g => g.id == gid)

/-- The order the handler sorts by: comparison of the numeric date
keys. -/
def dateLe (a b : EnrichedExpense) : Prop := a.date ≤ b.date

instance : DecidableRel dateLe :=
  fun a b => inferInstanceAs (Decidable (a.date ≤ b.date))

instance : IsTotal EnrichedExpense dateLe :=
  ⟨fun a b => le_total a.date b.date⟩

instance : IsTrans EnrichedExpense dateLe :=
  ⟨fun _ _ _ hab hbc => le_trans hab hbc⟩

/-- The row predicate of expenses:getByDateRange: the date lies in the
inclusive interval, and when a grantIds array is passed the grantId is a
member of it.  Only an absent argument disables the grant filter; a
passed empty array is truthy in JavaScript and matches nothing. -/
def inRange (startD endD : ℤ) (gids : Option (List String)) (e : Expense) : Bool :=
  decide (startD ≤ e.date) && decide (e.date ≤ endD) &&
    (match gids with
     | none => true
     | some l => l.contains e.grantId)

/-- The enrichment map of the handler: spread the expense and attach the
table lookup of its parent grant. -/
def enrich (gs : List Grant) (e : Expense) : EnrichedExpense :=
  ⟨e, grantTable gs e.grantId⟩

/-- The expenses:getByDateRange handler of main.ts lines 218 to 239:
build the id table, filter by date range and the optional grant filter,
enrich each survivor with its parent grant, and sort ascending by date.
The JavaScript Array sort is stable and its numeric comparator induces
the total preorder dateLe, so it produces the same list as the stable
insertion sort over dateLe. -/
def getByDateRange (s : LedgerState) (startD endD : ℤ)
    (gids : Option (List String)) : List EnrichedExpense :=
  List.insertionSort dateLe
    ((s.expenses.filter (inRange startD endD gids)).map (enrich s.grants))

/-- The Bool row predicate agrees with its propositional reading. -/
theorem inRange_iff (startD endD : ℤ) (gids : Option (List String)) (e : Expense) :
    inRange startD endD gids e = true ↔
      startD ≤ e.date ∧ e.date ≤ endD ∧
        (∀ l, gids = some l → e.grantId ∈ l) := by
  cases gids <;> simp [inRange]
  tauto

/-- Claim C5, counterexample to strict sortedness: two expenses sharing
the date key 5 both lie in the queried range, so the result carries the
date list 5, 5, which is not strictly ascending. -/
theorem getByDateRange_not_strictly_sorted :
    ((getByDateRange
        { grants := [plainGrant "G1"],
          expenses := [plainExpense "E1" "G1" 5, plainExpense "E2" "G1" 5] }
        0 10 none).map (fun e => e.date) = [5, 5]) ∧
    ¬ List.Chain' (fun a b : ℤ => a < b) [5, 5] := by
  constructor
  · rfl
  · norm_num [List.chain'_cons]

/-- Claim C5 (amended): the result of getByDateRange is sorted by date
in non-decreasing order (not strictly: expenses sharing a date all
appear), it is a permutation of the enriched filtered expense list, an
enriched expense is returned exactly when some stored expense lies in
the inclusive date interval and passes the optional grant filter, and
every returned expense carries the store lookup of its parent grant as
its snapshot. -/
theorem getByDateRange_spec (s : LedgerState) (startD endD : ℤ)
    (gids : Option (List String)) :
    List.Pairwise (fun a b : EnrichedExpense => a.date ≤ b.date)
      (getByDateRange s startD endD gids) ∧
    (getByDateRange s startD endD gids).Perm
      ((s.expenses.filter (inRange startD endD gids)).map (enrich s.grants)) ∧
    (∀ x, x ∈ getByDateRange s startD endD gids ↔
      ∃ e ∈ s.expenses, (startD ≤ e.date ∧ e.date ≤ endD ∧
        (∀ l, gids = some l → e.grantId ∈ l)) ∧ x = enrich s.grants e) ∧
    (∀ x ∈ getByDateRange s startD endD gids,
      x.grant = grantTable s.grants x.grantId) := by
  refine ⟨?_, ?_, ?_, ?_⟩
  · exact List.sorted_insertionSort dateLe _
  · exact List.perm_insertionSort dateLe _
  · intro x
    rw [getByDateRange, List.mem_insertionSort]
    simp only [List.mem_map, List.mem_filter]
    constructor
    · rintro ⟨e, ⟨he, hp⟩, hx⟩
      exact ⟨e, he, (inRange_iff startD endD gids e).mp hp, hx.symm⟩
    · rintro ⟨e, he, hp, hx⟩
      exact ⟨e, ⟨he, (inRange_iff startD endD gids e).mpr hp⟩, hx.symm⟩
  · intro x hx
    rw [getByDateRange, List.mem_insertionSort] at hx
    obtain ⟨e, _, hx⟩ := List.mem_map.mp hx
    subst hx
    rfl

/-- Witness for claim C5 (amended), the scenario of the spec with date
keys: expenses dated -1, 15 and 32; the query over the inclusive
interval 1 to 31 returns the expense dated 15. -/
theorem getByDateRange_spec_witness :
    enrich [plainGrant "G1"] (plainExpense "E2" "G1" 15) ∈
      getByDateRange
        { grants := [plainGrant "G1"],
          expenses := [plainExpense "E1" "G1" (-1), plainExpense "E2" "G1" 15,
                       plainExpense "E3" "G1" 32] } 1 31 none :=
  ((getByDateRange_spec
      { grants := [plainGrant "G1"],
        expenses := [plainExpense "E1" "G1" (-1), plainExpense "E2" "G1" 15,
                     plainExpense "E3" "G1" 32] } 1 31 none).2.2.1 _).mpr
    ⟨plainExpense "E2" "G1" 15, by simp, ⟨by norm_num [plainExpense],
      by norm_num [plainExpense], by simp⟩, rfl⟩

/-- Numeric value of a digit run, most significant first. -/
def digitsToNat (ds : List Char) : ℕ :=
  ds.foldl (fun a c => 10 * a + (c.toNat - 48)) 0

/-- Exponent part of a JavaScript float literal, after the letter e: an
optional sign and a digit run; with no digits the exponent is not part
of the longest valid literal prefix and contributes nothing. -/
def expPart (t : List Char) : ℤ :=
  let sgn : ℤ := match t with | '-' :: _ => -1 | _ => 1
  let t1 := match t with | '-' :: u => u | '+' :: u => u | _ => t
  let ds := t1.takeWhile Char.isDigit
  if ds.isEmpty then 0 else sgn * digitsToNat ds

/-- The syntactic stage of the JavaScript parseFloat: skip leading
whitespace, read an optional sign, then the longest prefix shaped
digits, optional dot and digits, optional exponent.  With no digit at
all the result is NaN, modelled none; the pieces returned are the sign,
the integer digits, the fraction digits and the exponent value. -/
def parseFloatParts (s : String) : Option (ℤ × List Char × List Char × ℤ) :=
  let cs0 := s.toList.dropWhile Char.isWhitespace
  let sgn : ℤ := match cs0 with | '-' :: _ => -1 | _ => 1
  let cs1 := match cs0 with | '-' :: t => t | '+' :: t => t | _ => cs0
  let ip := cs1.takeWhile Char.isDigit
  let r1 := cs1.dropWhile Char.isDigit
  let fp := match r1 with | '.' :: t => t.takeWhile Char.isDigit | _ => []
  let r2 := match r1 with | '.' :: t => t.dropWhile Char.isDigit | _ => r1
  if ip.isEmpty && fp.isEmpty then none
  else
    let ex : ℤ := match r2 with
      | 'e' :: t => expPart t
      | 'E' :: t => expPart t
      | _ => 0
    some (sgn, ip, fp, ex)

/-- The numeric value of the parsed pieces. -/
def floatVal (sgn : ℤ) (ip fp : List Char) (ex : ℤ) : ℚ :=
  (sgn : ℚ) * ((digitsToNat ip : ℚ) + (digitsToNat fp : ℚ) / (10 : ℚ) ^ fp.length)
    * (10 : ℚ) ^ ex

/-- The JavaScript parseFloat on a string, as the two stages composed.
The literals Infinity and -Infinity have no rational value and are
mapped to none together with NaN; no modelled code path can receive
them, since the flat import strips all letters first and the structured
one is evaluated on concrete numerals. -/
def parseFloatJS (s : String) : Option ℚ :=
  (parseFloatParts s).map (fun p => floatVal p.1 p.2.1 p.2.2.1 p.2.2.2)

/-- The JavaScript parseInt with no radix argument on a decimal string:
skip leading whitespace, read an optional sign and the longest digit
run; no digits give NaN, modelled none.  The hexadecimal autodetection
of a 0x prefix is not modelled; no modelled input carries one. -/
def parseIntParts (s : String) : Option (ℤ × List Char) :=
  let cs0 := s.toList.dropWhile Char.isWhitespace
  let sgn : ℤ := match cs0 with | '-' :: _ => -1 | _ => 1
  let cs1 := match cs0 with | '-' :: t => t | '+' :: t => t | _ => cs0
  let ds := cs1.takeWhile Char.isDigit
  if ds.isEmpty then none else some (sgn, ds)

/-- The numeric stage of parseInt, cast into the rational value the
record fields hold. -/
def parseIntJS (s : String) : Option ℚ :=
  (parseIntParts s).map (fun p => ((p.1 * digitsToNat p.2 : ℤ) : ℚ))

/-- Evaluation helper: a concrete syntactic parse determines the float
value. -/
theorem parseFloatJS_eval (s : String) (sgn : ℤ) (ip fp : List Char) (ex : ℤ)
    (h : parseFloatParts s = some (sgn, ip, fp, ex)) :
    parseFloatJS s = some (floatVal sgn ip fp ex) := by
  simp [parseFloatJS, h]

/-- The regular-expression replace of the flat import, deleting every
character outside digits, dot and minus. -/
def stripNonNumeric (s : String) : String :=
  ⟨s.toList.filter (fun c => c.isDigit || c == '.' || c == '-')⟩

/-- A spreadsheet row as sheet_to_json hands it to the import handlers:
an association list from header names to cell values.  A cell value is
modelled as the string the handlers coerce it to; a raw value that is
falsy before coercion (numeric 0, NaN, the empty string, a missing key
handled by none) is modelled as the empty string, which is extensionally
faithful on every modelled path: each such path either tests truthiness
first, or parses the value to the same number 0 or NaN that the falsy
original would give.  JavaScript object keys are unique; lookup takes
the first binding. -/
structure XRow where
  cells : List (String × String)
  deriving DecidableEq

/-- Property access row key. -/
def getCell (r : XRow) (k : String) : Option String :=
  (r.cells.find? (fun p => p.1 == k)).map (fun p => p.2)

/-- Truthy property access: a present, nonempty string. -/
def getTruthy (r : XRow) (k : String) : Option String :=
  match getCell r k with
  | some v => if v = "" then none else some v
  | none => none

/-- The coalescing chain row a or row b or default, as the import
handlers read aliased columns. -/
def firstTruthy (r : XRow) : List String → String → String
  | [], d => d
  | k :: ks, d =>
      match getTruthy r k with
      | some v => v
      | none => firstTruthy r ks d

/-- The column mapping state of BudgetUpload.tsx: for each logical field
the selected header name, the empty string meaning unmapped, as in the
initial component state and the empty select option. -/
structure ColumnMapping where
  description : String
  amount : String
  category : String
  deriving DecidableEq

/-- A candidate budget category of the flat import, after the local
BudgetCategory interface of BudgetUpload.tsx.  The amount is optional
only to model NaN; the description is absent when a mapped description
column has no cell in the row. -/
structure FlatCat where
  category : String
  amount : Option ℚ
  description : Option String
  deriving DecidableEq

/-- The per-row candidate record of handleImport in BudgetUpload.tsx
lines 83 to 99: the label starts at Other and, when a category column is
mapped and the cell is truthy, becomes the category mapping image
coalesced to Other; the amount is the float parse of the stripped cell
string, an absent cell or empty remainder being replaced by the string
0 before parsing; the description is the raw cell of the mapped
description column, or the empty string when unmapped. -/
def flatRowCat (catMap : String → Option String) (m : ColumnMapping)
    (r : XRow) : FlatCat :=
  let label :=
    match (if m.category = "" then none else getTruthy r m.category) with
    | some raw => (catMap raw).getD "Other"
    | none => "Other"
  let amtStr :=
    match getCell r m.amount with
    | none => "0"
    | some v => if stripNonNumeric v = "" then "0" else stripNonNumeric v
  { category := label, amount := parseFloatJS amtStr,
    description := if m.description = "" then some "" else getCell r m.description }

/-- The positivity filter of handleImport: item.amount greater than 0,
false for NaN. -/
def keepCat (c : FlatCat) : Bool :=
  match c.amount with
  | some a => decide (0 < a)
  | none => false

/-- The handleImport body of BudgetUpload.tsx lines 74 to 110: the early
return on a missing amount mapping or an empty parse result is none;
otherwise the rows are mapped to candidate records and the nonpositive
ones dropped. -/
def handleImport (rows : List XRow) (m : ColumnMapping)
    (catMap : String → Option String) : Option (List FlatCat) :=
  if m.amount = "" ∨ rows = [] then none
  else some (((rows.map (flatRowCat catMap m)).filter keepCat))

/-- The amount of a row in the words of the claim: delete every
character outside digits, dot and minus from the raw cell value, float
parse the remainder, and read an empty or unparseable remainder as 0. -/
def claimAmount (m : ColumnMapping) (r : XRow) : ℚ :=
  ((getCell r m.amount).bind (fun v => parseFloatJS (stripNonNumeric v))).getD 0

/-- The category label of a row in the words of the claim: the image of
the raw category value under the user mapping, defaulting to Other when
the value is unmapped or no category column is mapped. -/
def claimLabel (catMap : String → Option String) (m : ColumnMapping)
    (r : XRow) : String :=
  if m.category = "" then "Other"
  else (catMap ((getCell r m.category).getD "")).getD "Other"

/-- The imported record of a row in the words of the claim. -/
def claimRowCat (catMap : String → Option String) (m : ColumnMapping)
    (r : XRow) : FlatCat :=
  { category := claimLabel catMap m r, amount := some (claimAmount m r),
    description := if m.description = "" then some "" else getCell r m.description }

/-- The placeholder string 0 of the handler parses to the number 0. -/
theorem parseFloatJS_zero : parseFloatJS "0" = some 0 := by
  rw [parseFloatJS_eval "0" 1 ['0'] [] 0 (by decide)]
  norm_num [floatVal, show digitsToNat ['0'] = 0 from by decide,
    show digitsToNat [] = 0 from by decide]

/-- The empty remainder parses to NaN before the handler substitutes its
placeholder. -/
theorem parseFloatJS_empty : parseFloatJS "" = none := by
  simp [parseFloatJS, show parseFloatParts "" = none from by decide]

/-- The code filter decides exactly positivity of the claim amount: the
handler parses the placeholder string 0 where the claim reads 0
directly, and a NaN amount fails the positivity test exactly as the 0
the claim assigns it would. -/
theorem keepCat_eq_claim (catMap : String → Option String) (m : ColumnMapping)
    (r : XRow) :
    keepCat (flatRowCat catMap m r) = decide (0 < claimAmount m r) := by
  rcases h : getCell r m.amount with _ | v
  · simp [keepCat, flatRowCat, claimAmount, h, parseFloatJS_zero]
  · by_cases hs : stripNonNumeric v = ""
    · simp [keepCat, flatRowCat, claimAmount, h, hs, parseFloatJS_zero,
        parseFloatJS_empty]
    · rcases hp : parseFloatJS (stripNonNumeric v) with _ | a
      · simp [keepCat, flatRowCat, claimAmount, h, hs, hp]
      · simp [keepCat, flatRowCat, claimAmount, h, hs, hp]

/-- On the rows the filter keeps, the handler record is the claim
record, provided the user mapping does not bind the empty raw value,
which the mapping table of the component cannot: its keys are the truthy
unique values of the category column. -/
theorem flatRowCat_eq_claim (catMap : String → Option String)
    (m : ColumnMapping) (r : XRow) (hmap : catMap "" = none)
    (hpos : 0 < claimAmount m r) :
    flatRowCat catMap m r = claimRowCat catMap m r := by
  have hlabel :
      (match (if m.category = "" then none else getTruthy r m.category) with
        | some raw => (catMap raw).getD "Other"
        | none => "Other") = claimLabel catMap m r := by
    by_cases hc : m.category = ""
    · simp [claimLabel, hc]
    · rcases hg : getCell r m.category with _ | w
      · simp [claimLabel, hc, getTruthy, hg, hmap]
      · by_cases hw : w = ""
        · simp [claimLabel, hc, getTruthy, hg, hw, hmap]
        · simp [claimLabel, hc, getTruthy, hg, hw]
  rcases h : getCell r m.amount with _ | v
  · rw [claimAmount, h] at hpos
    norm_num at hpos
  · by_cases hs : stripNonNumeric v = ""
    · rw [claimAmount, h] at hpos
      simp only [Option.some_bind, hs, parseFloatJS_empty] at hpos
      norm_num at hpos
    · rcases hp : parseFloatJS (stripNonNumeric v) with _ | a
      · rw [claimAmount, h] at hpos
        simp only [Option.some_bind, hp] at hpos
        norm_num at hpos
      · simp [flatRowCat, claimRowCat, h, hs, hp, claimAmount, hlabel]

/-- Claim C7: with an amount column mapped, a nonempty parse result and
a user mapping that does not bind the empty raw value, the flat import
returns exactly the rows whose claim amount is positive, each turned
into the claim record: stripped-and-parsed amount, mapped-or-Other
label, and raw or empty description. -/
theorem handleImport_spec (rows : List XRow) (m : ColumnMapping)
    (catMap : String → Option String) (hm : m.amount ≠ "") (hr : rows ≠ [])
    (hmap : catMap "" = none) :
    handleImport rows m catMap = some
      ((rows.filter (fun r => decide (0 < claimAmount m r))).map
        (claimRowCat catMap m)) := by
  rw [handleImport, if_neg (by simp [hm, hr])]
  rw [List.filter_map]
  congr 1
  rw [List.filter_congr (fun r _ => by
    simpa using keepCat_eq_claim catMap m r)]
  apply List.map_congr_left
  intro r hrr
  have := (List.mem_filter.mp hrr).2
  exact flatRowCat_eq_claim catMap m r hmap (by simpa using this)

/-- A concrete upload row with a decorated amount and a category. -/
def uploadRowA : XRow := ⟨[("Amt", "$1,200"), ("Cat", "Trips")]⟩

/-- A concrete upload row whose amount is zero. -/
def uploadRowB : XRow := ⟨[("Amt", "0")]⟩

/-- A concrete upload row whose amount does not parse. -/
def uploadRowC : XRow := ⟨[("Amt", "abc")]⟩

/-- A concrete column mapping: amount and category mapped, description
not. -/
def uploadMapping : ColumnMapping := ⟨"", "Amt", "Cat"⟩

/-- A concrete user category mapping binding only the raw value
Trips. -/
def uploadCatMap : String → Option String :=
  fun s => if s = "Trips" then some "Travel" else none

/-- Witness for claim C7: of the three concrete rows, only the decorated
1200 survives, stripped, parsed and mapped to the Travel label; the zero
and unparseable rows are excluded. -/
theorem handleImport_spec_witness :
    handleImport [uploadRowA, uploadRowB, uploadRowC] uploadMapping uploadCatMap
      = some [{ category := "Travel", amount := some 1200, description := some "" }] := by
  have hA : claimAmount uploadMapping uploadRowA = 1200 := by
    rw [claimAmount,
      show getCell uploadRowA uploadMapping.amount = some "$1,200" from by decide]
    rw [Option.some_bind, show stripNonNumeric "$1,200" = "1200" from by decide]
    rw [parseFloatJS_eval "1200" 1 ['1', '2', '0', '0'] [] 0 (by decide)]
    norm_num [floatVal, show digitsToNat ['1', '2', '0', '0'] = 1200 from by decide,
      show digitsToNat [] = 0 from by decide]
  have hB : claimAmount uploadMapping uploadRowB = 0 := by
    rw [claimAmount,
      show getCell uploadRowB uploadMapping.amount = some "0" from by decide]
    rw [Option.some_bind, show stripNonNumeric "0" = "0" from by decide,
      parseFloatJS_zero]
    rfl
  have hC : claimAmount uploadMapping uploadRowC = 0 := by
    rw [claimAmount,
      show getCell uploadRowC uploadMapping.amount = some "abc" from by decide]
    rw [Option.some_bind, show stripNonNumeric "abc" = "" from by decide,
      parseFloatJS_empty]
    rfl
  rw [handleImport_spec [uploadRowA, uploadRowB, uploadRowC] uploadMapping
    uploadCatMap (by decide) (by simp) (by decide)]
  rw [List.filter_cons, List.filter_cons, List.filter_cons]
  rw [hA, hB, hC]
  norm_num
  rw [claimRowCat, hA,
    show claimLabel uploadCatMap uploadMapping uploadRowA = "Travel" from by decide]
  rfl

/-- The title of a structured import row, through its accepted header
aliases, defaulting to the empty string. -/
def rowTitle (r : XRow) : String := firstTruthy r ["Grant Title", "Title", "title"] ""

/-- The agency of a structured import row. -/
def rowAgency (r : XRow) : String := firstTruthy r ["Agency", "agency"] ""

/-- The number of a structured import row. -/
def rowNumber (r : XRow) : String := firstTruthy r ["Grant Number", "Number", "number"] ""

/-- The required-field validation of the structured import: a row passes
when title, agency and number are all truthy; otherwise the loop
continues with the next row. -/
def rowValid (r : XRow) : Bool :=
  !(rowTitle r == "") && !(rowAgency r == "") && !(rowNumber r == "")

/-- The formatDate helper of main.ts: the empty value short-circuits to
the empty string; otherwise the normalization through the spreadsheet
date codes and the JavaScript Date parser, both external collaborators,
is modelled by the oracle fmtDate. -/
def formatDateJS (fmtDate : String → String) (v : String) : String :=
  if v = "" then "" else fmtDate v

/-- The common fields of a typed budget category synthesized by the
structured import for the key k: the spreadsheet amount column value a
is stored directly as the amount, and description and notes come from
the keyed companion columns. -/
def typedCatBase (r : XRow) (now k : String) (t : CatType) (a : ℚ) : BudgetCategory :=
  { id := "", category := k, type := t, amount := some a,
    description := some (firstTruthy r [k ++ " Description"] ""),
    createdAt := now, monthlyRate := none, numberOfMonths := none,
    yearlyRate := none, numberOfYears := none, numberOfTrips := none,
    costPerTrip := none, numberOfStudents := none,
    notes := some (firstTruthy r [k ++ " Notes"] ""), fiscalYear := none }

/-- The switch of the structured import adding the type-specific
parameter columns.  The costPerTrip default is the amount itself, as in
the source; a parse failure stores NaN, modelled none. -/
def typedCatFields (r : XRow) (now k : String) (t : CatType) (a : ℚ) : BudgetCategory :=
  match t with
  | CatType.pi_salary =>
      { typedCatBase r now k t a with
          monthlyRate := parseFloatJS (firstTruthy r ["PI Monthly Rate"] "0"),
          numberOfMonths := parseIntJS (firstTruthy r ["PI Months"] "3") }
  | CatType.student_salary =>
      { typedCatBase r now k t a with
          monthlyRate := parseFloatJS (firstTruthy r ["Student Monthly Rate"] "0"),
          numberOfMonths := parseIntJS (firstTruthy r ["Student Months"] "3"),
          numberOfStudents := parseIntJS (firstTruthy r ["Number of Students"] "1") }
  | CatType.tuition =>
      { typedCatBase r now k t a with
          yearlyRate := parseFloatJS (firstTruthy r ["Tuition Per Year"] "0"),
          numberOfYears := parseIntJS (firstTruthy r ["Tuition Years"] "1"),
          numberOfStudents := parseIntJS (firstTruthy r ["Tuition Students"] "1") }
  | CatType.travel =>
      { typedCatBase r now k t a with
          numberOfTrips := parseIntJS (firstTruthy r ["Number of Trips"] "1"),
          costPerTrip := match getTruthy r "Cost Per Trip" with
            | some v => parseFloatJS v
            | none => some a }
  | _ => typedCatBase r now k t a

/-- One typed budget candidate of the structured import: the amount
column, or its lowercase alias klow carrying the toLowerCase image of
the key, is parsed, and the category is created exactly when the parsed
amount is positive (a NaN never is). -/
def typedCat (r : XRow) (now k klow : String) (t : CatType) : Option BudgetCategory :=
  match parseFloatJS (firstTruthy r [k, klow] "0") with
  | some a => if 0 < a then some (typedCatFields r now k t a) else none
  | none => none

/-- The fixed table of semantic budget columns of the structured import,
each key paired with its toLowerCase alias written out. -/
def budgetTypesTable : List (String × String × CatType) :=
  [("PI Summer Salary", "pi summer salary", CatType.pi_salary),
   ("Student Summer Salary", "student summer salary", CatType.student_salary),
   ("Travel", "travel", CatType.travel),
   ("Materials", "materials", CatType.materials),
   ("Publication", "publication", CatType.publication),
   ("Tuition", "tuition", CatType.tuition)]

/-- A two-step truthy coalescing chain with no default, as the generic
category columns are read. -/
def chain2 (r : XRow) (k1 k2 : String) : Option String :=
  match getTruthy r k1 with
  | some v => some v
  | none => getTruthy r k2

/-- The generic Category N and Amount N backward-compatibility pair of
the structured import: an other-typed category is pushed when both cells
are truthy, with the parsed amount stored unchecked. -/
def genericCat (r : XRow) (now : String) (i : ℕ) : Option BudgetCategory :=
  match chain2 r ("Category " ++ toString i) ("category" ++ toString i),
        chain2 r ("Amount " ++ toString i) ("amount" ++ toString i) with
  | some nm, some am =>
      some { id := "", category := nm, type := CatType.other,
             amount := parseFloatJS am,
             description := some (firstTruthy r
               ["Description " ++ toString i, "description" ++ toString i] ""),
             createdAt := now, monthlyRate := none, numberOfMonths := none,
             yearlyRate := none, numberOfYears := none, numberOfTrips := none,
             costPerTrip := none, numberOfStudents := none, notes := none,
             fiscalYear := none }
  | _, _ => none

/-- The ten generic pairs, numbered 1 to 10. -/
def genericCats (r : XRow) (now : String) : List BudgetCategory :=
  ((List.range 10).map (· + 1)).filterMap (genericCat r now)

/-- All budget categories of one structured import row before id
stamping, typed candidates first, generic ones after, in source
order. -/
def rowBudgetsRaw (r : XRow) (now : String) : List BudgetCategory :=
  (budgetTypesTable.filterMap (fun e => typedCat r now e.1 e.2.1 e.2.2)) ++
    genericCats r now

/-- The budget categories of one structured import row with their
generateId results: each created category receives the generated id of
its creation position, which freshCatsFrom stamps in order (the
createdAt it restamps is the same current time the records already
carry). -/
def rowBudgets (r : XRow) (ids : ℕ → String) (now : String) : List BudgetCategory :=
  freshCatsFrom ids now 0 (rowBudgetsRaw r now)

/-- The grant record a structured import row creates, around its
synthesized categories. -/
def rowGrant (fmtDate : String → String) (r : XRow) (gid now : String)
    (cats : List BudgetCategory) : Grant :=
  { id := gid, title := rowTitle r, agency := rowAgency r, number := rowNumber r,
    totalAmount := parseFloatJS (firstTruthy r ["Total Amount", "Amount", "totalAmount"] "0"),
    startDate := formatDateJS fmtDate (firstTruthy r ["Start Date", "startDate"] ""),
    endDate := formatDateJS fmtDate (firstTruthy r ["End Date", "endDate"] ""),
    description := firstTruthy r ["Description", "description"] "",
    status := firstTruthy r ["Status", "status"] "Active",
    budgetCategories := some cats, createdAt := now, updatedAt := now }

/-- The row loop of files:importGrantsFromExcel, main.ts lines 325 to
430, over the enumerated rows: an invalid row is skipped by continue,
leaving state and both counters untouched; a valid row appends exactly
one grant and counts it and its categories.  The generateId oracle gen
takes the row index and the call slot within the row, slot 0 being the
grant id.  The fold is total: no row can raise. -/
def importGo (fmtDate : String → String) (gen : ℕ → ℕ → String) (now : String) :
    List (ℕ × XRow) → LedgerState → ℕ → ℕ → LedgerState × ℕ × ℕ
  | [], s, gc, cc => (s, gc, cc)
  | (i, r) :: rest, s, gc, cc =>
      if rowValid r then
        importGo fmtDate gen now rest
          { grants := s.grants ++ [rowGrant fmtDate r (gen i 0) now
              (rowBudgets r (fun k => gen i (k + 1)) now)],
            expenses := s.expenses }
          (gc + 1) (cc + (rowBudgets r (fun k => gen i (k + 1)) now).length)
      else importGo fmtDate gen now rest s gc cc

/-- The whole structured import on an already parsed sheet: process the
enumerated rows from the freshly read store and report the two counters
(the handler writes once at the end and returns them with success). -/
def importExcel (fmtDate : String → String) (gen : ℕ → ℕ → String) (now : String)
    (rows : List XRow) (s : LedgerState) : LedgerState × ℕ × ℕ :=
  importGo fmtDate gen now rows.enum s 0 0

/-- The grant a numbered valid row contributes. -/
def rowResult (fmtDate : String → String) (gen : ℕ → ℕ → String) (now : String)
    (p : ℕ × XRow) : Grant :=
  rowGrant fmtDate p.2 (gen p.1 0) now (rowBudgets p.2 (fun k => gen p.1 (k + 1)) now)

/-- The row loop appends exactly the grants of the valid rows, in order,
adds their number to the grant counter and their category total to the
category counter, and never touches the expenses. -/
theorem importGo_spec (fmtDate : String → String) (gen : ℕ → ℕ → String)
    (now : String) :
    ∀ (l : List (ℕ × XRow)) (s : LedgerState) (gc cc : ℕ),
      importGo fmtDate gen now l s gc cc =
        ({ grants := s.grants ++
             (l.filter (fun p => rowValid p.2)).map (rowResult fmtDate gen now),
           expenses := s.expenses },
         gc + (l.filter (fun p => rowValid p.2)).length,
         cc + ((l.filter (fun p => rowValid p.2)).map
           (fun p => (rowBudgets p.2 (fun k => gen p.1 (k + 1)) now).length)).sum) := by
  intro l
  induction l with
  | nil => intro s gc cc; simp [importGo]
  | cons p rest ih =>
      intro s gc cc
      obtain ⟨i, r⟩ := p
      by_cases hv : rowValid r
      · simp only [importGo, hv, if_pos, ih, List.filter_cons, List.map_cons]
        simp [rowResult, List.append_assoc, List.length_cons]
        exact ⟨by omega, by omega⟩
      · simp only [importGo, hv, ih, List.filter_cons]
        simp [hv]

/-- Numbering the rows changes no filter count. -/
theorem enumFrom_filter_length (p : XRow → Bool) :
    ∀ (n : ℕ) (l : List XRow),
      ((List.enumFrom n l).filter (fun q => p q.2)).length = (l.filter p).length := by
  intro n l
  induction l generalizing n with
  | nil => rfl
  | cons x t ih => by_cases hx : p x <;> simp [List.enumFrom, List.filter_cons, hx, ih]

/-- Claim C8: a structured import row is valid exactly when title,
agency and number are all nonempty after alias resolution; the reported
grant count is the number of valid rows; the grants appended to the
store are exactly those of the valid rows in order, so a skipped row
contributes nothing and stops no later row; the count equals the number
of grants actually created; expenses are untouched; and the loop on an
invalid head row is the loop on the remaining rows with nothing
changed.  The loop is total, so a skipped row raises nothing. -/
theorem importExcel_spec (fmtDate : String → String) (gen : ℕ → ℕ → String)
    (now : String) (rows : List XRow) (s : LedgerState) :
    (∀ r : XRow, rowValid r = true ↔
      (rowTitle r ≠ "" ∧ rowAgency r ≠ "" ∧ rowNumber r ≠ "")) ∧
    (importExcel fmtDate gen now rows s).2.1 = (rows.filter rowValid).length ∧
    (importExcel fmtDate gen now rows s).1.grants = s.grants ++
      ((rows.enum.filter (fun p => rowValid p.2)).map (rowResult fmtDate gen now)) ∧
    (importExcel fmtDate gen now rows s).1.expenses = s.expenses ∧
    (importExcel fmtDate gen now rows s).1.grants.length =
      s.grants.length + (importExcel fmtDate gen now rows s).2.1 ∧
    (∀ (i : ℕ) (r : XRow) (rest : List (ℕ × XRow)) (s2 : LedgerState) (gc cc : ℕ),
      rowValid r = false →
      importGo fmtDate gen now ((i, r) :: rest) s2 gc cc =
        importGo fmtDate gen now rest s2 gc cc) := by
  have h := importGo_spec fmtDate gen now rows.enum s 0 0
  refine ⟨?_, ?_, ?_, ?_, ?_, ?_⟩
  · intro r
    simp only [rowValid, Bool.and_eq_true, Bool.not_eq_true', beq_eq_false_iff_ne]
    tauto
  · rw [importExcel, h]
    simp [List.enum, enumFrom_filter_length]
  · rw [importExcel, h]
  · rw [importExcel, h]
  · rw [importExcel, h]
    simp [List.enum, enumFrom_filter_length]
  · intro i r rest s2 gc cc hv
    simp [importGo, hv]

/-- A complete structured import row. -/
def goodRow : XRow := ⟨[("Grant Title", "G"), ("Agency", "NSF"), ("Grant Number", "42")]⟩

/-- A structured import row missing its agency. -/
def badRow : XRow := ⟨[("Grant Title", "B"), ("Grant Number", "43")]⟩

/-- Witness for claim C8: importing a batch whose first row lacks the
agency reports one grant, the one of the later complete row, and the
skipped head row leaves the loop state untouched. -/
theorem importExcel_spec_witness :
    (importExcel (fun v => v) (fun _ _ => "id") "t" [badRow, goodRow]
      { grants := [], expenses := [] }).2.1 = 1 ∧
    importGo (fun v => v) (fun _ _ => "id") "t" [(0, badRow)]
      { grants := [], expenses := [] } 0 0 =
    importGo (fun v => v) (fun _ _ => "id") "t" []
      { grants := [], expenses := [] } 0 0 := by
  have h := importExcel_spec (fun v => v) (fun _ _ => "id") "t" [badRow, goodRow]
    { grants := [], expenses := [] }
  constructor
  · rw [h.2.1]
    decide
  · exact h.2.2.2.2.2 0 badRow [] { grants := [], expenses := [] } 0 0 (by decide)

/-- A typed candidate whose amount column chain yields the placeholder
string 0 is not created. -/
theorem typedCat_of_zero (r : XRow) (now k klow : String) (t : CatType)
    (h : firstTruthy r [k, klow] "0" = "0") :
    typedCat r now k klow t = none := by
  rw [typedCat, h, parseFloatJS_zero]
  norm_num

/-- A typed candidate whose amount column parses positive is created
with the type-specific fields. -/
theorem typedCat_of_pos (r : XRow) (now k klow : String) (t : CatType) (a : ℚ)
    (h : parseFloatJS (firstTruthy r [k, klow] "0") = some a) (ha : 0 < a) :
    typedCat r now k klow t = some (typedCatFields r now k t a) := by
  rw [typedCat, h]
  simp [ha]

/-- A structured import row whose PI salary amount column disagrees with
its own rate and months columns: the sheet says 5000, the calculator
formula on the stored parameters says 2000 times 3. -/
def failRow : XRow :=
  ⟨[("Grant Title", "G"), ("Agency", "NSF"), ("Grant Number", "1"),
    ("PI Summer Salary", "5000"), ("PI Monthly Rate", "2000"), ("PI Months", "3")]⟩

/-- The category the import of failRow persists: the spreadsheet amount
5000 stored verbatim next to the monthly rate 2000 and the 3 months. -/
def failCat : BudgetCategory :=
  { id := "fid", category := "PI Summer Salary", type := CatType.pi_salary,
    amount := some 5000, description := some "", createdAt := "T",
    monthlyRate := some 2000, numberOfMonths := some 3,
    yearlyRate := none, numberOfYears := none, numberOfTrips := none,
    costPerTrip := none, numberOfStudents := none, notes := some "",
    fiscalYear := none }

/-- Claim C3, evaluation at the failing input: importing failRow stores
one grant with one pi salary category whose persisted amount is the
spreadsheet 5000, while the calculator of BudgetForm applied to the
stored parameters returns 6000; the import never invokes the
calculator, so the spreadsheet amount is trusted verbatim. -/
theorem structuredImport_stores_sheet_amount :
    ((importExcel (fun v => v) (fun _ _ => "fid") "T" [failRow]
        { grants := [], expenses := [] }).1.grants.map Grant.budgetCategories)
      = [some (rowBudgets failRow (fun _ => "fid") "T")] ∧
    rowBudgets failRow (fun _ => "fid") "T" = [failCat] ∧
    failCat.amount = some 5000 ∧
    calculateAmount failCat = 6000 ∧
    (5000 : ℚ) ≠ 6000 := by
  have h5000 : parseFloatJS "5000" = some 5000 := by
    rw [parseFloatJS_eval "5000" 1 ['5', '0', '0', '0'] [] 0 (by decide)]
    norm_num [floatVal, show digitsToNat ['5', '0', '0', '0'] = 5000 from by decide,
      show digitsToNat [] = 0 from by decide]
  have h2000 : parseFloatJS "2000" = some 2000 := by
    rw [parseFloatJS_eval "2000" 1 ['2', '0', '0', '0'] [] 0 (by decide)]
    norm_num [floatVal, show digitsToNat ['2', '0', '0', '0'] = 2000 from by decide,
      show digitsToNat [] = 0 from by decide]
  have h3 : parseIntJS "3" = some 3 := by
    rw [parseIntJS, show parseIntParts "3" = some (1, ['3']) from by decide]
    norm_num [show digitsToNat ['3'] = 3 from by decide]
  have hPI : typedCat failRow "T" "PI Summer Salary" "pi summer salary"
      CatType.pi_salary =
      some (typedCatFields failRow "T" "PI Summer Salary" CatType.pi_salary 5000) := by
    refine typedCat_of_pos _ _ _ _ _ 5000 ?_ (by norm_num)
    rw [show firstTruthy failRow ["PI Summer Salary", "pi summer salary"] "0"
      = "5000" from by decide]
    exact h5000
  have hraw : rowBudgetsRaw failRow "T" =
      [typedCatFields failRow "T" "PI Summer Salary" CatType.pi_salary 5000] := by
    rw [rowBudgetsRaw, budgetTypesTable,
      show genericCats failRow "T" = [] from by decide]
    simp only [List.filterMap_cons, List.filterMap_nil, hPI,
      typedCat_of_zero failRow "T" "Student Summer Salary" "student summer salary"
        CatType.student_salary (by decide),
      typedCat_of_zero failRow "T" "Travel" "travel" CatType.travel (by decide),
      typedCat_of_zero failRow "T" "Materials" "materials" CatType.materials (by decide),
      typedCat_of_zero failRow "T" "Publication" "publication" CatType.publication (by decide),
      typedCat_of_zero failRow "T" "Tuition" "tuition" CatType.tuition (by decide)]
    rfl
  have hfields : typedCatFields failRow "T" "PI Summer Salary" CatType.pi_salary 5000 =
      { failCat with id := "" } := by
    rw [typedCatFields]
    rw [show firstTruthy failRow ["PI Monthly Rate"] "0" = "2000" from by decide,
      show firstTruthy failRow ["PI Months"] "3" = "3" from by decide, h2000, h3]
    rfl
  have hb : rowBudgets failRow (fun _ => "fid") "T" = [failCat] := by
    rw [rowBudgets, hraw, hfields]
    rfl
  refine ⟨?_, hb, rfl, ?_, by norm_num⟩
  · rw [importExcel, show ([failRow] : List XRow).enum = [(0, failRow)] from rfl]
    rw [importGo, if_pos (show rowValid failRow = true from by decide)]
    rw [importGo]
    simp [rowGrant]
  · rw [calculateAmount]
    norm_num [failCat, orZero]

end GrantTracker
